import Mathlib

/-!
Shallow embedding of the growth-mindset digital diary application
(src/app.py): the JSON entry store with its load/save normalization,
tag parsing, the search and date filters, and the construction of a
new entry on save.
-/

set_option autoImplicit false

/-- JSON values, as produced by json.load on the storage file.
Objects are insertion-ordered key/value sequences, matching Python
dict iteration order; json.load never yields duplicate keys. -/
inductive Json where
  | null : Json
  | bool (b : Bool) : Json
  | num (n : Int) : Json
  | str (s : String) : Json
  | arr (elems : List Json) : Json
  | obj (fields : List (String × Json)) : Json
deriving Repr

/-- An entry record: a Python dict with string keys and JSON values,
kept in insertion order. -/
abbrev Dict := List (String × Json)

/-- Python d[k] / `k in d`: the value stored at key k, if present. -/
def dictGet : Dict → String → Option Json
  | [], _ => none
  | (k2, v) :: rest, k => if k = k2 then some v else dictGet rest k

/-- Python d.get(k, dflt). -/
def dictGetD (d : Dict) (k : String) (dflt : Json) : Json :=
  (dictGet d k).getD dflt

/-- Python d.setdefault(k, v): if k is absent, insert it at the end
(Python dicts append new keys in insertion order); otherwise leave the
dict unchanged. -/
def setdefault (d : Dict) (k : String) (v : Json) : Dict :=
  match dictGet d k with
  | some _ => d
  | none => d ++ [(k, v)]

/-- The per-entry normalization loop body of load_entries
(src/app.py lines 16-21): back-fill title, tags, username and image,
in that order. No other key is touched. -/
def normalizeEntry (e : Dict) : Dict :=
  setdefault
    (setdefault
      (setdefault
        (setdefault e "title" (Json.str "Untitled"))
        "tags" (Json.arr []))
      "username" (Json.str "Unknown User"))
    "image" Json.null

/-- The outcome of opening and json.load-ing the storage file:
the file may be absent, its content may fail to parse as JSON
(json.JSONDecodeError), or it parses to a JSON value. -/
inductive LoadInput where
  | absent : LoadInput
  | parseError : LoadInput
  | parsed (j : Json) : LoadInput

/-- The normalization loop over the parsed list. A list element that
is not an object makes entry.setdefault raise an uncaught
AttributeError in the Python code; that crash is modelled as none. -/
def normalizeAll : List Json → Option (List Dict)
  | [] => some []
  | j :: js =>
    match j with
    | Json.obj kvs =>
      match normalizeAll js with
      | some rest => some (normalizeEntry kvs :: rest)
      | none => none
    | _ => none

/-- load_entries (src/app.py lines 10-27): absent file, JSON parse
failure and non-list content all yield the empty list; a parsed list
has each entry back-filled in place and is returned. -/
def load_entries : LoadInput → Option (List Dict)
  | LoadInput.absent => some []
  | LoadInput.parseError => some []
  | LoadInput.parsed j =>
    match j with
    | Json.arr xs => normalizeAll xs
    | _ => some []

/-- save_entries (src/app.py lines 30-32) overwrites the storage file
with json.dump of the entry list. The JSON document written is the
list of the entry objects; json.load of that document parses back to
the same value, so a later load_entries sees exactly this input. -/
def save_entries (es : List Dict) : Json :=
  Json.arr (es.map Json.obj)

/-- All seven fields of the DiaryEntry data model are present. -/
def hasAllFields (e : Dict) : Prop :=
  (dictGet e "title").isSome = true ∧
  (dictGet e "date").isSome = true ∧
  (dictGet e "mood").isSome = true ∧
  (dictGet e "text").isSome = true ∧
  (dictGet e "tags").isSome = true ∧
  (dictGet e "username").isSome = true ∧
  (dictGet e "image").isSome = true

instance (e : Dict) : Decidable (hasAllFields e) := by
  unfold hasAllFields
  infer_instance

/-! Python string primitives used by the app, modelled on ASCII data:
str.lower, substring membership (`in`), str.strip, str.split(","). -/

/-- Python s.lower(); the app only feeds it ASCII text. -/
def pyLower (s : String) : String :=
  String.mk (s.toList.map Char.toLower)

/-- Does the candidate list start with the pattern list? -/
def listStarts : List Char → List Char → Bool
  | _, [] => true
  | [], _ :: _ => false
  | a :: as, b :: bs => a = b && listStarts as bs

/-- Is the pattern a contiguous sublist of the haystack? -/
def listHasSub : List Char → List Char → Bool
  | [], ndl => ndl.isEmpty
  | c :: t, ndl => listStarts (c :: t) ndl || listHasSub t ndl

/-- Python `ndl in hay` on strings: substring containment; the empty
string is contained in every string. -/
def pyIn (ndl hay : String) : Bool :=
  listHasSub hay.toList ndl.toList

/-- The characters Python str.strip() removes by default:
space, tab, newline, carriage return, vertical tab, form feed. -/
def isPyWhitespace (c : Char) : Bool :=
  c = Char.ofNat 32 || c = Char.ofNat 9 || c = Char.ofNat 10 ||
  c = Char.ofNat 13 || c = Char.ofNat 11 || c = Char.ofNat 12

/-- Python s.strip(): drop leading and trailing whitespace. -/
def pyStrip (s : String) : String :=
  String.mk (((s.toList.dropWhile isPyWhitespace).reverse.dropWhile
    isPyWhitespace).reverse)

/-- Python s.split(","): cut at every comma; no collapsing, so the
empty string splits to one empty piece. -/
def splitComma : List Char → List (List Char)
  | [] => [[]]
  | c :: rest =>
    match splitComma rest with
    | [] => [[]]
    | g :: gs =>
      if c = Char.ofNat 44 then [] :: g :: gs else (c :: g) :: gs

/-- tags_list (src/app.py line 86): split the tag input on commas,
strip each piece, keep the pieces that are non-empty after stripping. -/
def tags_list (s : String) : List String :=
  (((splitComma s.toList).map fun cs => pyStrip (String.mk cs)).filter
    fun t => !(t == ""))

/-! The date model: datetime.date values and
datetime.datetime.strptime with the fixed format string
YYYY-MM-DD (Weekday) used throughout the app. -/

/-- A calendar date as datetime.date stores it. -/
structure PyDate where
  year : Nat
  month : Nat
  day : Nat
deriving Repr, DecidableEq

/-- datetime.date ordering: lexicographic on (year, month, day). -/
def dateLe (a b : PyDate) : Bool :=
  a.year < b.year ||
  (a.year = b.year &&
    (a.month < b.month || (a.month = b.month && a.day ≤ b.day)))

/-- Gregorian leap year, as datetime uses it. -/
def isLeap (y : Nat) : Bool :=
  (y % 4 = 0 && !(y % 100 = 0)) || y % 400 = 0

/-- Number of days in a month, as datetime validates the day field. -/
def daysInMonth (y m : Nat) : Nat :=
  if m = 2 then (if isLeap y then 29 else 28)
  else if m = 4 || m = 6 || m = 9 || m = 11 then 30
  else 31

/-- Value of a decimal digit character. -/
def digitVal (c : Char) : Nat :=
  c.toNat - 48

/-- The strptime %Y directive: exactly four decimal digits. -/
def parseY : List Char → Option (Nat × List Char)
  | a :: b :: c :: d :: rest =>
    if a.isDigit && b.isDigit && c.isDigit && d.isDigit then
      some (digitVal a * 1000 + digitVal b * 100 + digitVal c * 10 +
        digitVal d, rest)
    else none
  | _ => none

/-- The strptime %m and %d directives: one or two decimal digits,
greedy; in this format the next character is never a digit, so greedy
matching agrees with regex backtracking. -/
def parseMD : List Char → Option (Nat × List Char)
  | [] => none
  | a :: rest =>
    if a.isDigit then
      match rest with
      | b :: rest2 =>
        if b.isDigit then some (digitVal a * 10 + digitVal b, rest2)
        else some (digitVal a, b :: rest2)
      | [] => some (digitVal a, [])
    else none

/-- Consume one expected literal character. -/
def matchLit (c : Char) : List Char → Option (List Char)
  | x :: rest => if x = c then some rest else none
  | [] => none

/-- Consume a fixed name, case-insensitively, as strptime matches
weekday names (its regex is compiled with IGNORECASE). -/
def matchNameCI : List Char → List Char → Option (List Char)
  | [], rest => some rest
  | _ :: _, [] => none
  | n :: ns, c :: cs =>
    if n.toLower = c.toLower then matchNameCI ns cs else none

/-- Consume one name out of a list of alternatives. -/
def matchAnyName : List String → List Char → Option (List Char)
  | [], _ => none
  | n :: ns, cs =>
    match matchNameCI n.toList cs with
    | some rest => some rest
    | none => matchAnyName ns cs

/-- The full weekday names the %A directive accepts. No name is a
proper prolongation of another, so the trial order does not matter. -/
def weekdayNames : List String :=
  ["monday", "tuesday", "wednesday", "thursday", "friday",
   "saturday", "sunday"]

/-- datetime.datetime.strptime(s, "%Y-%m-%d (%A)").date():
match the whole string against the format (trailing text is an
error), then validate the field ranges as the datetime constructor
does. strptime does not check that the weekday name agrees with the
date. Any failure raises ValueError, modelled as none. -/
def pyStrptimeDate (s : String) : Option PyDate := do
  let (y, r1) ← parseY s.toList
  let r2 ← matchLit (Char.ofNat 45) r1
  let (m, r3) ← parseMD r2
  let r4 ← matchLit (Char.ofNat 45) r3
  let (d, r5) ← parseMD r4
  let r6 ← matchLit (Char.ofNat 32) r5
  let r7 ← matchLit (Char.ofNat 40) r6
  let r8 ← matchAnyName weekdayNames r7
  let r9 ← matchLit (Char.ofNat 41) r8
  if r9.isEmpty && 1 ≤ y && 1 ≤ m && m ≤ 12 && 1 ≤ d &&
      d ≤ daysInMonth y m then
    pure (PyDate.mk y m d)
  else none

/-! The sidebar filter (src/app.py lines 168-172) and the newest-first
display order (line 181). Python evaluation order and short-circuiting
are kept: the title test runs first, the tag generator only when the
title did not match, and the date lookup and parse only when the
search condition held. An uncaught exception (a non-string where a
string method is called, a missing date key, an unparsable date
string) is modelled as none. -/

/-- any(query in tag.lower() for tag in tags): walk the tags in
order, stop at the first match; a non-string tag reached before a
match raises (none). -/
def tagsAnyMatch (qLow : String) : List Json → Option Bool
  | [] => some false
  | j :: js =>
    match j with
    | Json.str tag =>
      if pyIn qLow (pyLower tag) then some true
      else tagsAnyMatch qLow js
    | _ => none

/-- The search condition of the filter: the lowered query is a
substring of the lowered title (default empty string when the key is
absent), or of some lowered tag (default empty list). -/
def searchMatch (q : String) (ent : Dict) : Option Bool :=
  match dictGetD ent "title" (Json.str "") with
  | Json.str title =>
    if pyIn (pyLower q) (pyLower title) then some true
    else
      match dictGetD ent "tags" (Json.arr []) with
      | Json.arr ts => tagsAnyMatch (pyLower q) ts
      | _ => none
  | _ => none

/-- The date condition of the filter:
start_date <= strptime(entry[\x22date\x22], format).date() <= end_date.
The key lookup is unguarded (KeyError when absent) and the value must
be a string that parses in the fixed format (TypeError / ValueError
otherwise). -/
def dateCond (sd ed : PyDate) (ent : Dict) : Option Bool :=
  match dictGet ent "date" with
  | some (Json.str s) =>
    match pyStrptimeDate s with
    | some d => some (dateLe sd d && dateLe d ed)
    | none => none
  | _ => none

/-- One entry of the comprehension: search condition and date
condition, with Python `and` short-circuit, so the date condition is
only evaluated when the search condition held. -/
def entryKeep (q : String) (sd ed : PyDate) (ent : Dict) : Option Bool :=
  match searchMatch q ent with
  | none => none
  | some false => some false
  | some true => dateCond sd ed ent

/-- filtered_entries (src/app.py lines 168-172): the list
comprehension keeping the entries on which both conditions held; the
first entry that raises aborts the whole comprehension. -/
def filtered_entries (q : String) (sd ed : PyDate) :
    List Dict → Option (List Dict)
  | [] => some []
  | ent :: rest =>
    match entryKeep q sd ed ent with
    | none => none
    | some b =>
      match filtered_entries q sd ed rest with
      | none => none
      | some tail => some (if b then ent :: tail else tail)

/-- The sidebar display order (src/app.py line 181): the filtered
entries are walked through reversed(...), newest first. -/
def displayed_entries (q : String) (sd ed : PyDate) (es : List Dict) :
    Option (List Dict) :=
  (filtered_entries q sd ed es).map List.reverse

/-- The entry dict built by the save action (src/app.py lines
112-120), with the Python `or` defaults on title and username: the
empty string is falsy, so it is replaced by the default. -/
def mkEntry (title fdate mood dtext : String) (tags : List String)
    (username : String) (image : Option String) : Dict :=
  [("title", Json.str (if title = "" then "Untitled" else title)),
   ("date", Json.str fdate),
   ("mood", Json.str mood),
   ("text", Json.str dtext),
   ("tags", Json.arr (tags.map Json.str)),
   ("username",
     Json.str (if username = "" then "Unknown User" else username)),
   ("image", (image.map Json.str).getD Json.null)]

/-! Concrete sample data used to instantiate the general statements. -/

/-- What normalizeEntry makes of the empty record. -/
def normalizedEmpty : Dict :=
  [("title", Json.str "Untitled"), ("tags", Json.arr []),
   ("username", Json.str "Unknown User"), ("image", Json.null)]

/-- A minimal entry dated 2024-01-01. -/
def entryJan01 : Dict := [("date", Json.str "2024-01-01 (Monday)")]

/-- A minimal entry dated 2024-01-05. -/
def entryJan05 : Dict := [("date", Json.str "2024-01-05 (Friday)")]

/-- A minimal entry dated 2024-01-10. -/
def entryJan10 : Dict := [("date", Json.str "2024-01-10 (Wednesday)")]

/-- A complete entry as the save action would build it. -/
def sampleFull : Dict :=
  mkEntry "Trip" "2024-01-05 (Friday)" "Happy" "went hiking"
    ["Travel"] "Tab" none

/-! Association-list facts about dictGet and setdefault. -/

/-- A key found in the left part of an append is found in the whole. -/
theorem dictGet_append_some {d1 : Dict} {k : String} {v : Json}
    (d2 : Dict) (h : dictGet d1 k = some v) :
    dictGet (d1 ++ d2) k = some v := by
  induction d1 with
  | nil => simp [dictGet] at h
  | cons p rest ih =>
    obtain ⟨k2, w⟩ := p
    by_cases hk : k = k2
    · simp [dictGet, hk] at h ⊢
      exact h
    · simp [dictGet, hk] at h ⊢
      exact ih h

/-- A key absent from the left part of an append is looked up in the
right part. -/
theorem dictGet_append_none {d1 : Dict} {k : String} (d2 : Dict)
    (h : dictGet d1 k = none) :
    dictGet (d1 ++ d2) k = dictGet d2 k := by
  induction d1 with
  | nil => rfl
  | cons p rest ih =>
    obtain ⟨k2, w⟩ := p
    by_cases hk : k = k2
    · simp [dictGet, hk] at h
    · simp [dictGet, hk] at h ⊢
      exact ih h

/-- setdefault leaves a dict unchanged when the key is present. -/
theorem setdefault_of_isSome {d : Dict} {k : String} {v : Json}
    (h : (dictGet d k).isSome = true) : setdefault d k v = d := by
  unfold setdefault
  cases hd : dictGet d k with
  | some w => rfl
  | none => rw [hd] at h; simp at h

/-- After setdefault, the key holds its old value, or the default if
it was absent. -/
theorem dictGet_setdefault_self {d : Dict} {k : String} {v : Json} :
    dictGet (setdefault d k v) k = some ((dictGet d k).getD v) := by
  unfold setdefault
  cases hd : dictGet d k with
  | some w => simp [hd]
  | none =>
    rw [dictGet_append_none _ hd]
    simp [dictGet]

/-- setdefault at one key does not change lookups at another key. -/
theorem dictGet_setdefault_other {d : Dict} {k k2 : String} {v : Json}
    (h : ¬ k2 = k) :
    dictGet (setdefault d k v) k2 = dictGet d k2 := by
  unfold setdefault
  cases hd : dictGet d k with
  | some w => rfl
  | none =>
    cases h2 : dictGet d k2 with
    | some w => exact dictGet_append_some _ h2
    | none =>
      rw [dictGet_append_none _ h2]
      simp [dictGet, h]

/-! What normalizeEntry does at each key. -/

/-- The title after normalization: kept, or defaulted to Untitled. -/
theorem norm_dictGet_title (e : Dict) :
    dictGet (normalizeEntry e) "title" =
      some ((dictGet e "title").getD (Json.str "Untitled")) := by
  unfold normalizeEntry
  rw [dictGet_setdefault_other (by decide),
      dictGet_setdefault_other (by decide),
      dictGet_setdefault_other (by decide),
      dictGet_setdefault_self]

/-- The tags after normalization: kept, or defaulted to the empty
list. -/
theorem norm_dictGet_tags (e : Dict) :
    dictGet (normalizeEntry e) "tags" =
      some ((dictGet e "tags").getD (Json.arr [])) := by
  unfold normalizeEntry
  rw [dictGet_setdefault_other (by decide),
      dictGet_setdefault_other (by decide),
      dictGet_setdefault_self,
      dictGet_setdefault_other (by decide)]

/-- The username after normalization: kept, or defaulted. -/
theorem norm_dictGet_username (e : Dict) :
    dictGet (normalizeEntry e) "username" =
      some ((dictGet e "username").getD (Json.str "Unknown User")) := by
  unfold normalizeEntry
  rw [dictGet_setdefault_other (by decide),
      dictGet_setdefault_self,
      dictGet_setdefault_other (by decide),
      dictGet_setdefault_other (by decide)]

/-- The image after normalization: kept, or defaulted to null. -/
theorem norm_dictGet_image (e : Dict) :
    dictGet (normalizeEntry e) "image" =
      some ((dictGet e "image").getD Json.null) := by
  unfold normalizeEntry
  rw [dictGet_setdefault_self,
      dictGet_setdefault_other (by decide),
      dictGet_setdefault_other (by decide),
      dictGet_setdefault_other (by decide)]

/-- Any key other than the four back-filled ones is untouched by
normalization. -/
theorem norm_dictGet_untouched (e : Dict) (k : String)
    (h1 : ¬ k = "title") (h2 : ¬ k = "tags") (h3 : ¬ k = "username")
    (h4 : ¬ k = "image") :
    dictGet (normalizeEntry e) k = dictGet e k := by
  unfold normalizeEntry
  rw [dictGet_setdefault_other h4, dictGet_setdefault_other h3,
      dictGet_setdefault_other h2, dictGet_setdefault_other h1]

/-- The four back-filled keys are present after normalization. -/
theorem normalizeEntry_fields_present (e : Dict) :
    (dictGet (normalizeEntry e) "title").isSome = true ∧
    (dictGet (normalizeEntry e) "tags").isSome = true ∧
    (dictGet (normalizeEntry e) "username").isSome = true ∧
    (dictGet (normalizeEntry e) "image").isSome = true := by
  refine ⟨?_, ?_, ?_, ?_⟩ <;>
    simp [norm_dictGet_title, norm_dictGet_tags, norm_dictGet_username,
      norm_dictGet_image]

/-- Normalization is the identity on an entry whose four back-filled
keys are already present. -/
theorem normalizeEntry_eq_self (e : Dict)
    (ht : (dictGet e "title").isSome = true)
    (htg : (dictGet e "tags").isSome = true)
    (hu : (dictGet e "username").isSome = true)
    (hi : (dictGet e "image").isSome = true) :
    normalizeEntry e = e := by
  unfold normalizeEntry
  rw [setdefault_of_isSome ht, setdefault_of_isSome htg,
      setdefault_of_isSome hu, setdefault_of_isSome hi]

/-- The normalization loop on a list of objects normalizes each. -/
theorem normalizeAll_map_obj (es : List Dict) :
    normalizeAll (es.map Json.obj) = some (es.map normalizeEntry) := by
  induction es with
  | nil => rfl
  | cons e rest ih => simp [normalizeAll, ih]

/-- Loading a parsed list of entry objects returns each entry
normalized, in order. -/
theorem load_entries_objs (es : List Dict) :
    load_entries (LoadInput.parsed (Json.arr (es.map Json.obj))) =
      some (es.map normalizeEntry) := by
  simp [load_entries, normalizeAll_map_obj]

/-- Normalizing a list of entries that all have every field is the
identity. -/
theorem map_normalize_eq_self (l : List Dict)
    (hl : ∀ e ∈ l, hasAllFields e) : l.map normalizeEntry = l := by
  induction l with
  | nil => rfl
  | cons e rest ih =>
    obtain ⟨ht, _, _, _, htg, hu, hi⟩ := hl e (by simp)
    simp only [List.map_cons]
    rw [normalizeEntry_eq_self e ht htg hu hi,
      ih (fun x hx => hl x (by simp [hx]))]

/-! Claims about the entry store. -/

/-- Claim C1 as stated is false: load_entries backfills only title,
tags, username and image. Loading a store whose single entry is the
empty record returns that entry still missing its date, mood and text
fields. -/
theorem load_missing_date_not_backfilled :
    load_entries (LoadInput.parsed (Json.arr [Json.obj []])) =
      some [normalizedEmpty] ∧
    dictGet normalizedEmpty "date" = none ∧
    dictGet normalizedEmpty "mood" = none ∧
    dictGet normalizedEmpty "text" = none :=
  ⟨rfl, rfl, rfl, rfl⟩

/-- Claim C1, amended: for every list of entry records loaded from
the storage file, load_entries returns each entry with the fields
title, tags, username and image present, back-filling any of the four
that is missing; the date, mood and text fields are not back-filled. -/
theorem load_backfills_title_tags_username_image (es : List Dict) :
    load_entries (LoadInput.parsed (Json.arr (es.map Json.obj))) =
      some (es.map normalizeEntry) ∧
    ∀ e ∈ es.map normalizeEntry,
      (dictGet e "title").isSome = true ∧
      (dictGet e "tags").isSome = true ∧
      (dictGet e "username").isSome = true ∧
      (dictGet e "image").isSome = true := by
  refine ⟨load_entries_objs es, ?_⟩
  intro e he
  obtain ⟨e0, _, rfl⟩ := List.mem_map.mp he
  exact normalizeEntry_fields_present e0

/-- Witness for the amended C1 at the one-empty-record store. -/
theorem load_backfills_title_tags_username_image_witness :
    load_entries
        (LoadInput.parsed (Json.arr ([([] : Dict)].map Json.obj))) =
      some ([([] : Dict)].map normalizeEntry) ∧
    ((dictGet (normalizeEntry ([] : Dict)) "title").isSome = true ∧
     (dictGet (normalizeEntry ([] : Dict)) "tags").isSome = true ∧
     (dictGet (normalizeEntry ([] : Dict)) "username").isSome = true ∧
     (dictGet (normalizeEntry ([] : Dict)) "image").isSome = true) :=
  ⟨(load_backfills_title_tags_username_image [[]]).1,
   (load_backfills_title_tags_username_image [[]]).2
     (normalizeEntry []) (by simp)⟩

/-- Claim C2: load_entries returns the empty list when the file is
absent, when its content fails to parse, and when the parsed value is
not a list; a parsed list of entry records is returned with each
record normalized. -/
theorem load_error_and_list_cases :
    load_entries LoadInput.absent = some [] ∧
    load_entries LoadInput.parseError = some [] ∧
    (∀ j : Json, (∀ xs : List Json, ¬ j = Json.arr xs) →
      load_entries (LoadInput.parsed j) = some []) ∧
    (∀ es : List Dict,
      load_entries (LoadInput.parsed (Json.arr (es.map Json.obj))) =
        some (es.map normalizeEntry)) := by
  refine ⟨rfl, rfl, ?_, load_entries_objs⟩
  intro j hj
  cases j with
  | arr xs => exact absurd rfl (hj xs)
  | null => rfl
  | bool b => rfl
  | num n => rfl
  | str s => rfl
  | obj kvs => rfl

/-- Witness for C2 at a non-list file and a one-record list. -/
theorem load_error_and_list_cases_witness :
    load_entries (LoadInput.parsed (Json.str "oops")) = some [] ∧
    load_entries (LoadInput.parsed
        (Json.arr ([([("mood", Json.str "Happy")] : Dict)].map
          Json.obj))) =
      some ([([("mood", Json.str "Happy")] : Dict)].map
        normalizeEntry) :=
  ⟨load_error_and_list_cases.2.2.1 (Json.str "oops")
     (fun _ h => Json.noConfusion h),
   load_error_and_list_cases.2.2.2 [[("mood", Json.str "Happy")]]⟩

/-- Claim C3: a loaded record missing tags, username, image or title
comes back with default empty list, Unknown User, null and Untitled
respectively. -/
theorem load_field_defaults (es : List Dict) (e : Dict) (he : e ∈ es) :
    load_entries (LoadInput.parsed (Json.arr (es.map Json.obj))) =
      some (es.map normalizeEntry) ∧
    normalizeEntry e ∈ es.map normalizeEntry ∧
    (dictGet e "tags" = none →
      dictGet (normalizeEntry e) "tags" = some (Json.arr [])) ∧
    (dictGet e "username" = none →
      dictGet (normalizeEntry e) "username" =
        some (Json.str "Unknown User")) ∧
    (dictGet e "image" = none →
      dictGet (normalizeEntry e) "image" = some Json.null) ∧
    (dictGet e "title" = none →
      dictGet (normalizeEntry e) "title" =
        some (Json.str "Untitled")) := by
  refine ⟨load_entries_objs es, List.mem_map_of_mem _ he,
    ?_, ?_, ?_, ?_⟩
  · intro h
    simp [norm_dictGet_tags, h]
  · intro h
    simp [norm_dictGet_username, h]
  · intro h
    simp [norm_dictGet_image, h]
  · intro h
    simp [norm_dictGet_title, h]

/-- Witness for C3 at the empty record, which misses all four keys. -/
theorem load_field_defaults_witness :
    load_entries
        (LoadInput.parsed (Json.arr ([([] : Dict)].map Json.obj))) =
      some ([([] : Dict)].map normalizeEntry) ∧
    dictGet (normalizeEntry ([] : Dict)) "tags" =
      some (Json.arr []) ∧
    dictGet (normalizeEntry ([] : Dict)) "username" =
      some (Json.str "Unknown User") ∧
    dictGet (normalizeEntry ([] : Dict)) "image" = some Json.null ∧
    dictGet (normalizeEntry ([] : Dict)) "title" =
      some (Json.str "Untitled") :=
  ⟨(load_field_defaults [[]] [] (by simp)).1,
   (load_field_defaults [[]] [] (by simp)).2.2.1 rfl,
   (load_field_defaults [[]] [] (by simp)).2.2.2.1 rfl,
   (load_field_defaults [[]] [] (by simp)).2.2.2.2.1 rfl,
   (load_field_defaults [[]] [] (by simp)).2.2.2.2.2 rfl⟩

/-- Claim C4: saving a list of entries that each carry all seven
fields and loading the written document reproduces the same list, in
the same order, with the same values. -/
theorem save_then_load_round_trip (es : List Dict)
    (h : ∀ e ∈ es, hasAllFields e) :
    load_entries (LoadInput.parsed (save_entries es)) = some es := by
  unfold save_entries
  rw [load_entries_objs, map_normalize_eq_self es h]

/-- Witness for C4 at a one-entry store built by the save action. -/
theorem save_then_load_round_trip_witness :
    (∀ e ∈ [sampleFull], hasAllFields e) ∧
    load_entries (LoadInput.parsed (save_entries [sampleFull])) =
      some [sampleFull] :=
  ⟨by decide, save_then_load_round_trip [sampleFull] (by decide)⟩

/-! Claims about tag parsing and the filters. -/

/-- The tag-membership generator over a list of string tags computes
the boolean any of the per-tag substring tests. -/
theorem tagsAnyMatch_strs (qLow : String) (tags : List String) :
    tagsAnyMatch qLow (tags.map Json.str) =
      some (tags.any fun t => pyIn qLow (pyLower t)) := by
  induction tags with
  | nil => rfl
  | cons t rest ih =>
    simp only [List.map_cons, tagsAnyMatch, List.any_cons]
    by_cases h : pyIn qLow (pyLower t) = true
    · simp [h]
    · simp only [Bool.not_eq_true] at h
      simp [h, ih]

/-- Claim C5: tag parsing yields exactly the claimed list on the
specification input, never keeps a piece that is empty after
stripping, preserves the order of the comma-separated pieces, and
keeps duplicates. -/
theorem tags_parsing_correct :
    tags_list "Travel, , Work,Health " = ["Travel", "Work", "Health"] ∧
    (∀ s : String, List.Sublist (tags_list s)
      ((splitComma s.toList).map fun cs => pyStrip (String.mk cs))) ∧
    (∀ (s t : String), t ∈ tags_list s → ¬ t = "") ∧
    tags_list "Work,Travel,Work" = ["Work", "Travel", "Work"] := by
  refine ⟨by decide, fun s => List.filter_sublist _, ?_, by decide⟩
  intro s t ht
  have hp := List.of_mem_filter ht
  simpa using hp

/-- Witness for C5: order preservation and non-emptiness at a
concrete input. -/
theorem tags_parsing_correct_witness :
    List.Sublist (tags_list "a, ,b")
      ((splitComma ("a, ,b").toList).map fun cs =>
        pyStrip (String.mk cs)) ∧
    ¬ "a" = "" :=
  ⟨tags_parsing_correct.2.1 "a, ,b",
   tags_parsing_correct.2.2.1 "a, ,b" "a" (by decide)⟩

/-- Claim C6: on an entry whose title is a string and whose tags are
a list of strings, the search condition holds exactly when the
lowered query occurs in the lowered title or in some lowered tag; at
the concrete instance, query health matches via the tag Health even
though the title does not contain it. -/
theorem search_filter_correct :
    (∀ (q title : String) (tags : List String) (ent : Dict),
      dictGetD ent "title" (Json.str "") = Json.str title →
      dictGetD ent "tags" (Json.arr []) = Json.arr (tags.map Json.str) →
      searchMatch q ent =
        some (pyIn (pyLower q) (pyLower title) ||
          tags.any fun t => pyIn (pyLower q) (pyLower t))) ∧
    searchMatch "health"
      [("title", Json.str "A fine day"),
       ("tags", Json.arr [Json.str "Health"])] = some true ∧
    pyIn (pyLower "health") (pyLower "A fine day") = false := by
  refine ⟨?_, rfl, rfl⟩
  intro q title tags ent ht htg
  unfold searchMatch
  rw [ht, htg]
  by_cases hm : pyIn (pyLower q) (pyLower title) = true
  · simp [hm]
  · simp only [Bool.not_eq_true] at hm
    simp [hm, tagsAnyMatch_strs]

/-- Witness for C6 at an entry with a string title and one tag. -/
theorem search_filter_correct_witness :
    searchMatch "health"
      [("title", Json.str "My day"),
       ("tags", Json.arr [Json.str "Health"])] =
      some (pyIn (pyLower "health") (pyLower "My day") ||
        ["Health"].any fun t => pyIn (pyLower "health") (pyLower t)) :=
  search_filter_correct.1 "health" "My day" ["Health"]
    [("title", Json.str "My day"), ("tags", Json.arr [Json.str "Health"])]
    rfl rfl

/-- Claim C7: on an entry whose date string parses, the date
condition holds exactly when the parsed date lies in the inclusive
range; on the three concrete dated entries only the 2024-01-05 one
passes the filter, and both range endpoints are accepted. -/
theorem date_filter_correct :
    (∀ (sd ed d : PyDate) (ent : Dict) (s : String),
      dictGet ent "date" = some (Json.str s) →
      pyStrptimeDate s = some d →
      dateCond sd ed ent = some (dateLe sd d && dateLe d ed)) ∧
    filtered_entries "" (PyDate.mk 2024 1 2) (PyDate.mk 2024 1 6)
      [entryJan01, entryJan05, entryJan10] = some [entryJan05] ∧
    dateCond (PyDate.mk 2024 1 1) (PyDate.mk 2024 1 5) entryJan01 =
      some true ∧
    dateCond (PyDate.mk 2024 1 1) (PyDate.mk 2024 1 5) entryJan05 =
      some true := by
  refine ⟨?_, rfl, rfl, rfl⟩
  intro sd ed d ent s hs hp
  simp [dateCond, hs, hp]

/-- Witness for C7 at the 2024-01-05 entry and the claimed range. -/
theorem date_filter_correct_witness :
    dateCond (PyDate.mk 2024 1 2) (PyDate.mk 2024 1 6) entryJan05 =
      some (dateLe (PyDate.mk 2024 1 2) (PyDate.mk 2024 1 5) &&
        dateLe (PyDate.mk 2024 1 5) (PyDate.mk 2024 1 6)) :=
  date_filter_correct.1 (PyDate.mk 2024 1 2) (PyDate.mk 2024 1 6)
    (PyDate.mk 2024 1 5) entryJan05 "2024-01-05 (Friday)" rfl rfl

/-- On entries where neither condition raises, the comprehension is
the list filter by the conjunction of the two conditions. -/
theorem filtered_entries_eq_filter (q : String) (sd ed : PyDate)
    (es : List Dict) :
    (∀ ent ∈ es, (entryKeep q sd ed ent).isSome = true) →
    filtered_entries q sd ed es =
      some (es.filter fun ent =>
        decide (entryKeep q sd ed ent = some true)) := by
  induction es with
  | nil => intro _; rfl
  | cons ent rest ih =>
    intro h
    obtain ⟨b, hb⟩ := Option.isSome_iff_exists.mp (h ent (by simp))
    have ih2 := ih (fun x hx => h x (by simp [hx]))
    cases b with
    | true => simp [filtered_entries, hb, ih2, List.filter_cons]
    | false => simp [filtered_entries, hb, ih2, List.filter_cons]

/-- Claim C8: keeping an entry is the logical AND of the search and
date conditions, and on a store where no entry raises, the filter
keeps exactly the entries satisfying both, displayed in reverse of
store order (newest first). -/
theorem combined_filter_and_display :
    (∀ (q : String) (sd ed : PyDate) (ent : Dict),
      entryKeep q sd ed ent = some true ↔
        (searchMatch q ent = some true ∧
         dateCond sd ed ent = some true)) ∧
    (∀ (q : String) (sd ed : PyDate) (es : List Dict),
      (∀ ent ∈ es, (entryKeep q sd ed ent).isSome = true) →
      filtered_entries q sd ed es =
        some (es.filter fun ent =>
          decide (entryKeep q sd ed ent = some true)) ∧
      displayed_entries q sd ed es =
        some ((es.filter fun ent =>
          decide (entryKeep q sd ed ent = some true)).reverse)) := by
  constructor
  · intro q sd ed ent
    unfold entryKeep
    cases hs : searchMatch q ent with
    | none => simp
    | some b =>
      cases b with
      | false => simp
      | true => simp
  · intro q sd ed es h
    have hf := filtered_entries_eq_filter q sd ed es h
    exact ⟨hf, by simp [displayed_entries, hf]⟩

/-- Witness for C8 on a concrete two-entry store with the empty
query. -/
theorem combined_filter_and_display_witness :
    filtered_entries "" (PyDate.mk 2024 1 2) (PyDate.mk 2024 1 6)
      [entryJan01, entryJan05] =
      some ([entryJan01, entryJan05].filter fun ent =>
        decide (entryKeep "" (PyDate.mk 2024 1 2) (PyDate.mk 2024 1 6)
          ent = some true)) ∧
    displayed_entries "" (PyDate.mk 2024 1 2) (PyDate.mk 2024 1 6)
      [entryJan01, entryJan05] =
      some (([entryJan01, entryJan05].filter fun ent =>
        decide (entryKeep "" (PyDate.mk 2024 1 2) (PyDate.mk 2024 1 6)
          ent = some true)).reverse) :=
  combined_filter_and_display.2 "" (PyDate.mk 2024 1 2)
    (PyDate.mk 2024 1 6) [entryJan01, entryJan05] (by decide)

/-- Claim C9: the save action stores Untitled when the title input is
empty and Unknown User when the username input is empty. -/
theorem save_entry_defaults
    (title fdate mood dtext : String) (tags : List String)
    (username : String) (image : Option String) :
    (title = "" →
      dictGet (mkEntry title fdate mood dtext tags username image)
        "title" = some (Json.str "Untitled")) ∧
    (username = "" →
      dictGet (mkEntry title fdate mood dtext tags username image)
        "username" = some (Json.str "Unknown User")) := by
  refine ⟨fun h => ?_, fun h => ?_⟩
  · subst h
    rfl
  · subst h
    rfl

/-- Witness for C9 at a save with empty title and username inputs. -/
theorem save_entry_defaults_witness :
    dictGet (mkEntry "" "2024-01-05 (Friday)" "Happy" "txt" [] "" none)
      "title" = some (Json.str "Untitled") ∧
    dictGet (mkEntry "" "2024-01-05 (Friday)" "Happy" "txt" [] "" none)
      "username" = some (Json.str "Unknown User") :=
  ⟨(save_entry_defaults "" "2024-01-05 (Friday)" "Happy" "txt" [] ""
      none).1 rfl,
   (save_entry_defaults "" "2024-01-05 (Friday)" "Happy" "txt" [] ""
      none).2 rfl⟩

/-- Claim C10: load_entries accepts a store whose entry has no date
key (it back-fills only title, tags, username and image), and the
filter then raises on that loaded entry; likewise for a date string
that is not in the YYYY-MM-DD (Weekday) format. -/
theorem filter_partial_on_loadable_store :
    load_entries (LoadInput.parsed (Json.arr [Json.obj []])) =
      some [normalizedEmpty] ∧
    dictGet normalizedEmpty "date" = none ∧
    filtered_entries "" (PyDate.mk 2024 1 1) (PyDate.mk 2024 12 31)
      [normalizedEmpty] = none ∧
    load_entries (LoadInput.parsed (Json.arr
      [Json.obj [("date", Json.str "not-a-date")]])) =
      some [normalizeEntry [("date", Json.str "not-a-date")]] ∧
    filtered_entries "" (PyDate.mk 2024 1 1) (PyDate.mk 2024 12 31)
      [normalizeEntry [("date", Json.str "not-a-date")]] = none :=
  ⟨rfl, rfl, rfl, rfl, rfl⟩
